import Mathlib

/-!
Shallow embedding of the entity-resolution / aggregation / projection core of
`src/scripts/generate-html.ts` (the static-directory generator).

Conventions for the embedding:
* JS records loaded from CSV carry string fields; a missing or empty field is
  represented by the empty string `""`, matching the fact that every guard in
  the source is a JS truthiness test (`if (salon.city_id && ...)`), for which
  `undefined` and `""` behave identically.
* The JS `Map` objects (`citiesMap`, `statesMap`, `categoriesMap`) are built
  with `new Map(list.map(x => [x.id, x]))`; on duplicate ids the later entry
  overwrites the earlier one, so lookup is modelled as a reverse `find?` by id.
  Iteration over `Map.entries()` follows key insertion order; it is modelled by
  iterating the underlying list, which coincides with the JS behaviour when the
  ids are duplicate-free (the data-model invariant of the spec); theorems that
  depend on iteration order carry the corresponding `Nodup` hypothesis.
* The mutable `salon_count` / `city_count` fields are modelled as accumulator
  functions `String → Nat` keyed by entity id, which agrees with the in-place
  mutation through the maps whenever ids are duplicate-free.
* String operations (`trim`, `toUpperCase`, `toLowerCase`, `split`,
  `substring`) are modelled by executable character-list functions defined
  below, which agree with the JS operations on ASCII data.
-/

/-- JS `string.split(sep)` for a one-character separator, on character lists:
splits at every occurrence of the separator and keeps empty segments, so the
result always has one more segment than there are separators. -/
def splitChars (sep : Char) : List Char → List (List Char)
  | [] => [[]]
  | c :: cs =>
    let r := splitChars sep cs
    if c = sep then [] :: r
    else (c :: r.headD []) :: r.tail

/-- JS `string.split(sep)` for a one-character separator. -/
def jsSplit (sep : Char) (s : String) : List String :=
  (splitChars sep s.data).map String.mk

/-- JS `string.trim()`: drop leading and trailing whitespace. -/
def trimChars (l : List Char) : List Char :=
  ((l.dropWhile Char.isWhitespace).reverse.dropWhile Char.isWhitespace).reverse

/-- JS `string.trim()`. -/
def jsTrim (s : String) : String :=
  String.mk (trimChars s.data)

/-- JS `string.toUpperCase()` (ASCII). -/
def jsToUpper (s : String) : String :=
  String.mk (s.data.map Char.toUpper)

/-- JS `string.toLowerCase()` (ASCII). -/
def jsToLower (s : String) : String :=
  String.mk (s.data.map Char.toLower)

/-- JS `string.substring(0, n)`. -/
def jsTake (s : String) (n : Nat) : String :=
  String.mk (s.data.take n)

/-- JS `string.length` (ASCII: one UTF-16 unit per character). -/
def jsLength (s : String) : Nat :=
  s.data.length

/-- A business record (`BeautySalon` in the source). Contact fields that are
only copied verbatim into the projection (website, telephone, email, postal
code, coordinates, opening hours, description, services, reviews, rating,
detail/amenity/payment/image lists) are omitted: no resolution, counting or
slug logic reads them. -/
structure Salon where
  id : String := ""
  title : String := ""
  address : String := ""
  city_id : String := ""
  city_name : String := ""
  state_id : String := ""
  state_name : String := ""
  category_ids : String := ""
deriving Repr, DecidableEq

/-- A `City` record from `city.csv`. -/
structure City where
  id : String := ""
  city : String := ""
  state_id : String := ""
  state_name : String := ""
deriving Repr, DecidableEq

/-- A `State` record from `state.csv`. -/
structure State where
  id : String := ""
  state : String := ""
deriving Repr, DecidableEq

/-- A `Category` record from `category.csv`. -/
structure Category where
  id : String := ""
  category : String := ""
deriving Repr, DecidableEq

/-- `citiesMap.get(k)`: last record with the given id wins, as in
`new Map(cities.map(city => [city.id, city]))`. -/
def cityLookup (cities : List City) (k : String) : Option City :=
  cities.reverse.find? (fun c => c.id == k)

/-- `statesMap.get(k)`. -/
def stateLookup (states : List State) (k : String) : Option State :=
  states.reverse.find? (fun st => st.id == k)

/-- `categoriesMap.get(k)`. -/
def catLookup (cats : List Category) (k : String) : Option Category :=
  cats.reverse.find? (fun c => c.id == k)

/-- Step 1 of the resolution pass (generate-html.ts lines 285-289): copy the
state display name onto a city whose `state_id` resolves. -/
def resolveCity (states : List State) (c : City) : City :=
  if c.state_id != "" then
    match stateLookup states c.state_id with
    | some st => { c with state_name := st.state }
    | none => c
  else c

/-- Step 2a (lines 294-302): if `city_id` resolves, adopt the city name, and if
the city's `state_id` resolves, adopt that state id and name, overwriting any
state the salon already had. -/
def assignFromCityId (cities : List City) (states : List State) (s : Salon) : Salon :=
  if s.city_id != "" then
    match cityLookup cities s.city_id with
    | some c =>
      if c.state_id != "" then
        match stateLookup states c.state_id with
        | some st => { s with city_name := c.city, state_id := c.state_id, state_name := st.state }
        | none => { s with city_name := c.city }
      else { s with city_name := c.city }
    | none => s
  else s

/-- `salon.address.split(',').map(part => part.trim())`. -/
def addressParts (addr : String) : List String :=
  (jsSplit ',' addr).map jsTrim

/-- `segment.split(' ').pop()` (the split of a string is never empty). -/
def lastSpaceToken (seg : String) : String :=
  (jsSplit ' ' seg).getLastD ""

/-- `state.state.substring(0, 2).toUpperCase() === abbr.toUpperCase()`
(line 315). -/
def stateAbbrevMatches (abbr : String) (st : State) : Bool :=
  jsToUpper (jsTake st.state 2) == jsToUpper abbr

/-- The state-abbreviation inference core of step 2b (lines 306-321): split the
address on commas, trim, take the second-to-last segment, take its last
space-delimited token, and if that token has exactly two characters return the
first state whose display name matches it on the first two characters,
case-insensitively. -/
def inferStateFromAddress (states : List State) (addr : String) : Option State :=
  let parts := addressParts addr
  if parts.length ≥ 2 then
    let abbr := lastSpaceToken (parts.getD (parts.length - 2) "")
    if abbr != "" && jsLength abbr == 2 then
      states.find? (stateAbbrevMatches abbr)
    else none
  else none

/-- Step 2b (lines 305-323): if the salon still lacks a state id or a state
name and has an address, run the abbreviation inference; a match assigns both
the state id and name, a miss leaves the salon unchanged. -/
def inferStateStep (states : List State) (s : Salon) : Salon :=
  if s.address != "" && (s.state_id == "" || s.state_name == "") then
    match inferStateFromAddress states s.address with
    | some st => { s with state_id := st.id, state_name := st.state }
    | none => s
  else s

/-- Step 2c (lines 326-348): if the salon still lacks a city name and the
address has at least three comma segments, look the third-to-last segment up
case-insensitively among the city names; a match assigns the city id and name,
and, only when the salon has no state id yet, the city's state id (plus the
state name when that id resolves). -/
def extractCityStep (cities : List City) (states : List State) (s : Salon) : Salon :=
  if s.address != "" && s.city_name == "" then
    let parts := addressParts s.address
    if parts.length ≥ 3 then
      match cities.find? (fun c => jsToLower c.city == jsToLower (parts.getD (parts.length - 3) "")) with
      | some c =>
        if c.state_id != "" && s.state_id == "" then
          match stateLookup states c.state_id with
          | some st =>
            { s with city_id := c.id, city_name := c.city,
                     state_id := c.state_id, state_name := st.state }
          | none => { s with city_id := c.id, city_name := c.city, state_id := c.state_id }
        else { s with city_id := c.id, city_name := c.city }
      | none => s
    else s
  else s

/-- The per-salon part of the resolution pass: steps 2a, 2b, 2c in source
order (lines 292-349). -/
def resolveSalon (cities : List City) (states : List State) (s : Salon) : Salon :=
  extractCityStep cities states (inferStateStep states (assignFromCityId cities states s))

/-- One full resolution pass over the collections (steps 1-2): cities are
backfilled first, salons are then resolved against the backfilled cities, as
in the source (salon resolution only reads `city.city` and `city.state_id`,
which step 1 never changes). -/
def resolvePass (states : List State) (p : List City × List Salon) :
    List City × List Salon :=
  let cities := p.1.map (resolveCity states)
  (cities, p.2.map (resolveSalon cities states))

/-- A resolved salon is consistent with the city-state chain: whenever its
`city_id` resolves to a city whose own nonempty `state_id` resolves to a
state, the salon carries exactly that state id and state name.  This is the
post-condition the resolution pass is meant to establish; the idempotence of
the pass holds exactly on salons whose resolved form satisfies it. -/
def consistentB (cities : List City) (states : List State) (t : Salon) : Bool :=
  if t.city_id != "" then
    match cityLookup cities t.city_id with
    | some c =>
      if c.state_id != "" then
        match stateLookup states c.state_id with
        | some st => t.state_id == c.state_id && t.state_name == st.state
        | none => true
      else true
    | none => true
  else true

/-- Non-degenerate state collection: every state has a nonempty id and a
nonempty display name. -/
def statesWF (states : List State) : Bool :=
  states.all (fun st => st.id != "" && st.state != "")

/-- Increment an id-keyed accumulator at one key. -/
def bump (acc : String → Nat) (k : String) : String → Nat :=
  fun x => if x = k then acc x + 1 else acc x

/-- Step 3, category part (lines 366-373): every id in the comma-split
`category_ids` of every salon that is present in the categories map bumps that
category's `salon_count`; the whole field is skipped when it is empty
(falsy). -/
def categoryCounts (cats : List Category) (salons : List Salon) : String → Nat :=
  salons.foldl
    (fun acc s =>
      if s.category_ids != "" then
        (jsSplit ',' s.category_ids).foldl
          (fun acc2 cid => if (catLookup cats cid).isSome then bump acc2 cid else acc2) acc
      else acc)
    (fun _ => 0)

/-- Step 3, city-per-state part (lines 377-382): every city whose `state_id`
is nonempty and resolves bumps that state's `city_count`. -/
def stateCityCounts (states : List State) (cities : List City) : String → Nat :=
  cities.foldl
    (fun acc c =>
      if c.state_id != "" && (stateLookup states c.state_id).isSome then bump acc c.state_id
      else acc)
    (fun _ => 0)

/-!
The `slugify` npm package with `{ lower: true }`, restricted to ASCII input
(its `charMap` only affects non-ASCII characters): each `-` is first turned
into a space, characters outside `[A-Za-z0-9_]`, whitespace and the literal
set `$ * _ + ~ . ( ) quote doublequote ! : @` are removed, the result is
trimmed, whitespace runs are replaced by single hyphens, and the result is
lower-cased.
-/

/-- The punctuation characters the slugify removal regex keeps:
`$ * _ + ~ . ( ) ' " ! : @` (written by code point). -/
def slugSpecials : List Char :=
  [Char.ofNat 36, Char.ofNat 42, Char.ofNat 95, Char.ofNat 43, Char.ofNat 126,
   Char.ofNat 46, Char.ofNat 40, Char.ofNat 41, Char.ofNat 39, Char.ofNat 34,
   Char.ofNat 33, Char.ofNat 58, Char.ofNat 64]

/-- Whether the slugify removal regex keeps a character. -/
def slugKeep (c : Char) : Bool :=
  c.isAlphanum || c.isWhitespace || slugSpecials.contains c

/-- The per-character phase of slugify: hyphens become spaces, characters the
removal regex does not keep are dropped. -/
def slugFilter : List Char → List Char
  | [] => []
  | c :: cs =>
    let c1 := if c = '-' then ' ' else c
    if slugKeep c1 then c1 :: slugFilter cs else slugFilter cs

/-- The whitespace-collapse phase of slugify (`replace(/\s+/g, '-')`): each
maximal whitespace run becomes a single hyphen.  The flag records whether a
whitespace run is pending. -/
def collapseWsAux : Bool → List Char → List Char
  | pend, [] => if pend then ['-'] else []
  | pend, c :: cs =>
    if c.isWhitespace then collapseWsAux true cs
    else if pend then '-' :: c :: collapseWsAux false cs
    else c :: collapseWsAux false cs

/-- `replace(/\s+/g, '-')`. -/
def collapseWs (l : List Char) : List Char :=
  collapseWsAux false l

/-- `slugify(s, { lower: true })` on ASCII input. -/
def slugify (s : String) : String :=
  String.mk (((collapseWs (trimChars (slugFilter s.data))).map Char.toLower))

/-- The characters an entity id may consist of for the amended slug-uniqueness
claim: lowercase letters and digits, all of which pass through slugification
unchanged and are neither hyphens nor whitespace. -/
def slugSafeChars : List Char :=
  "abcdefghijklmnopqrstuvwxyz0123456789".data

/-- An id that embeds into a slug verbatim: nonempty and made of lowercase
letters and digits. -/
def idSafe (i : String) : Bool :=
  i != "" && i.data.all (fun c => slugSafeChars.contains c)

/-- The segment of a character list after its last hyphen (the whole list when
there is no hyphen). -/
def lastComp (l : List Char) : List Char :=
  l.foldl (fun acc c => if c = '-' then [] else acc ++ [c]) []

/-- The projected (frontend-facing) shape of a salon (lines 408-434); the
contact fields that are copied verbatim are omitted as on `Salon`. -/
structure ProcessedSalon where
  id : String := ""
  title : String := ""
  slug : String := ""
  address : String := ""
  city_id : String := ""
  city_name : String := ""
  state_id : String := ""
  state_name : String := ""
  category_ids : List String := []
deriving Repr, DecidableEq

/-- Step 4, salon projection (lines 385-435). Returns both the projected
record and the salon as it is left behind: the source mutates
`salon.state_name` (line 398) when the name is missing but the salon's city
resolves to a city whose state resolves, and the record is built from the
mutated salon. -/
def projectSalon (cities : List City) (states : List State) (s : Salon) :
    ProcessedSalon × Salon :=
  let citySlug := if s.city_name != "" then slugify s.city_name else "unknown-city"
  let p : String × Salon :=
    if s.state_name != "" then (slugify s.state_name, s)
    else if s.city_id != "" then
      match cityLookup cities s.city_id with
      | some c =>
        if c.state_id != "" then
          match stateLookup states c.state_id with
          | some st => (slugify st.state, { s with state_name := st.state })
          | none => ("us", s)
        else ("us", s)
      | none => ("us", s)
    else ("us", s)
  let stateSlug := p.1
  let s1 := p.2
  let slug := slugify (citySlug ++ "-" ++ stateSlug ++ "-" ++ s.title ++ "-" ++ s.id)
  ({ id := s1.id, title := s1.title, slug := slug, address := s1.address,
     city_id := s1.city_id, city_name := s1.city_name, state_id := s1.state_id,
     state_name := s1.state_name,
     category_ids := if s1.category_ids != "" then jsSplit ',' s1.category_ids else [] },
   s1)

/-- The `processedSalons` array (line 385). -/
def processedSalons (cities : List City) (states : List State) (salons : List Salon) :
    List ProcessedSalon :=
  salons.map (fun s => (projectSalon cities states s).1)

/-- A salon's generated slug. -/
def salonSlug (cities : List City) (states : List State) (s : Salon) : String :=
  (projectSalon cities states s).1.slug

/-- The projection output of the pipeline for a (cities, salons) pair that has
already gone through resolution. -/
def projectionOutput (states : List State) (p : List City × List Salon) :
    List ProcessedSalon :=
  processedSalons p.1 states p.2

/-- The `slice(i, i + 200)` chunking of the company sitemap loop
(lines 1112-1114): successive chunks of at most 200 salons; an empty input
yields no chunk. -/
def chunk200 {α : Type} : List α → List (List α)
  | [] => []
  | a :: t => ((a :: t).take 200) :: chunk200 ((a :: t).drop 200)
termination_by l => l.length
decreasing_by
  simp only [List.length_drop, List.length_cons]
  omega

/-- One `<url>` entry of a company sitemap shard (lines 1119-1125). -/
def companySitemapEntry (s : ProcessedSalon) : String :=
  "  <url>\n    <loc>https://electrolysisdirectory.com/companies/" ++ s.slug ++
    "/</loc>\n    <changefreq>monthly</changefreq>\n    <priority>0.8</priority>\n  </url>\n"

/-- The XML text of one company sitemap shard (lines 1116-1127). -/
def companySitemapXml (chunk : List ProcessedSalon) : String :=
  "<?xml version=\"1.0\" encoding=\"UTF-8\"?>\n<urlset xmlns=\"http://www.sitemaps.org/schemas/sitemap/0.9\">\n"
    ++ String.join (chunk.map companySitemapEntry) ++ "</urlset>"

/-- All company sitemap shards (lines 1111-1132). -/
def companySitemaps (salons : List ProcessedSalon) : List String :=
  (chunk200 salons).map companySitemapXml

/-! ## Behaviour of the individual resolution steps -/

/-- Step 2a in the fully-resolvable case: city name, state id and state name
are all overwritten from the city and its state. -/
theorem assignFromCityId_resolved (cities : List City) (states : List State)
    (s : Salon) (c : City) (st : State)
    (h1 : s.city_id ≠ "") (h2 : cityLookup cities s.city_id = some c)
    (h3 : c.state_id ≠ "") (h4 : stateLookup states c.state_id = some st) :
    assignFromCityId cities states s =
      { s with city_name := c.city, state_id := c.state_id, state_name := st.state } := by
  unfold assignFromCityId
  rw [if_pos (by simpa using h1), h2]
  simp only
  rw [if_pos (by simpa using h3), h4]

/-- Step 2a is a no-op when the city lookup misses. -/
theorem assignFromCityId_of_lookup_none (cities : List City) (states : List State)
    (s : Salon) (h : cityLookup cities s.city_id = none) :
    assignFromCityId cities states s = s := by
  unfold assignFromCityId
  split
  · rw [h]
  · rfl

/-- Step 2b is skipped when both state fields are already nonempty. -/
theorem inferStateStep_of_set (states : List State) (s : Salon)
    (h1 : s.state_id ≠ "") (h2 : s.state_name ≠ "") :
    inferStateStep states s = s := by
  unfold inferStateStep
  rw [if_neg]
  simp [h1, h2]

/-- Step 2b fires and assigns the matched state when a state field is missing
and the address inference finds a match. -/
theorem inferStateStep_fires (states : List State) (s : Salon) (st : State)
    (h1 : s.address ≠ "") (h2 : s.state_id = "" ∨ s.state_name = "")
    (h3 : inferStateFromAddress states s.address = some st) :
    inferStateStep states s = { s with state_id := st.id, state_name := st.state } := by
  unfold inferStateStep
  rw [if_pos, h3]
  rcases h2 with h2 | h2 <;> simp [h1, h2]

/-- Step 2c never touches the state fields of a salon that already has a
state id. -/
theorem extractCityStep_state_of_set (cities : List City) (states : List State)
    (s : Salon) (h : s.state_id ≠ "") :
    (extractCityStep cities states s).state_id = s.state_id ∧
      (extractCityStep cities states s).state_name = s.state_name := by
  unfold extractCityStep
  split
  · dsimp only
    split
    · split
      · rw [if_neg (by simp [h])]
        exact ⟨rfl, rfl⟩
      · exact ⟨rfl, rfl⟩
    · exact ⟨rfl, rfl⟩
  · exact ⟨rfl, rfl⟩

/-! ## C1 -/

/-- C1, counterexample: a Business whose `city_id` resolves to a City whose
own `state_id` also resolves can still end the resolution pass with a state
different from the city-derived one: here the city's state "SX" has an empty
display name, so after step 2a the salon still has no `state_name`, step 2b
re-fires and the address abbreviation heuristic overwrites the state with
"TX1".  The claimed invariant (final `state_id` equals the City's `state_id`)
is false. -/
theorem c1_counterexample :
    let cities : List City := [{ id := "c1", city := "A", state_id := "SX" }]
    let states : List State := [{ id := "SX", state := "" }, { id := "TX1", state := "Texas" }]
    let b : Salon := { id := "b1", title := "T", city_id := "c1",
                       address := "1 Main St, Austin TE, USA" }
    cityLookup cities b.city_id = some { id := "c1", city := "A", state_id := "SX" } ∧
      (resolveSalon cities states b).state_id ≠ "SX" := by
  exact ⟨by decide, by decide⟩

/-- C1, amended: if a Business's `city_id` resolves to a City, that City's
`state_id` is nonempty and resolves to a State, and that State's display name
is nonempty (so the address heuristic of step 2b cannot re-fire), then after
the resolution pass the Business's `state_id` equals the City's `state_id`,
overwriting any pre-existing state. -/
theorem c1_amended (cities : List City) (states : List State)
    (s : Salon) (c : City) (st : State)
    (h1 : s.city_id ≠ "") (h2 : cityLookup cities s.city_id = some c)
    (h3 : c.state_id ≠ "") (h4 : stateLookup states c.state_id = some st)
    (h5 : st.state ≠ "") :
    (resolveSalon cities states s).state_id = c.state_id := by
  unfold resolveSalon
  rw [assignFromCityId_resolved cities states s c st h1 h2 h3 h4]
  rw [inferStateStep_of_set states _ (by simpa using h3) (by simpa using h5)]
  exact (extractCityStep_state_of_set cities states _ (by simpa using h3)).1

/-- C1 amended, witness: a Business loaded with a mismatched state "SY" ends
with the city-derived state "SX". -/
theorem c1_amended_witness :
    (resolveSalon [{ id := "c1", city := "A", state_id := "SX" }]
        [{ id := "SX", state := "Nowhere" }]
        { id := "b1", title := "T", city_id := "c1", state_id := "SY", state_name := "Y" }).state_id
      = "SX" :=
  c1_amended _ _ _ { id := "c1", city := "A", state_id := "SX" } { id := "SX", state := "Nowhere" }
    (by decide) (by decide) (by decide) (by decide) (by decide)

/-! ## C3 -/

/-- C3, counterexample: on the Business with address
"1 A St, Suite 2, New York, NY" and State {id:"NY1", state:"New York"}, the
inference does NOT resolve the state: the second-to-last comma segment is
"New York", its last space token is "York" (length 4, not 2), so the
abbreviation heuristic never fires (and even a two-character "NY" token would
not match, since the first two characters of "New York" are "NE"). -/
theorem c3_counterexample :
    (resolveSalon [] [{ id := "NY1", state := "New York" }]
        { id := "1", title := "T", address := "1 A St, Suite 2, New York, NY" }).state_id
      ≠ "NY1" := by
  decide

/-- C3, amended: on that input the Business's state remains unresolved. -/
theorem c3_amended :
    (resolveSalon [] [{ id := "NY1", state := "New York" }]
        { id := "1", title := "T", address := "1 A St, Suite 2, New York, NY" }).state_id = "" ∧
      (resolveSalon [] [{ id := "NY1", state := "New York" }]
        { id := "1", title := "T", address := "1 A St, Suite 2, New York, NY" }).state_name = "" := by
  exact ⟨by decide, by decide⟩

/-! ## C9 -/

/-- C9: the Business {id:"5", city_id:"", address:"123 Main St, Springfield,
IL, USA"} with City {id:"9", city:"Springfield", state_id:"IL1"} present is
resolved by the address-based city extraction to city_id "9" and city_name
"Springfield". -/
theorem c9_city_extraction :
    (resolveSalon [{ id := "9", city := "Springfield", state_id := "IL1" }]
        [{ id := "IL1", state := "Illinois" }]
        { id := "5", title := "T", city_id := "",
          address := "123 Main St, Springfield, IL, USA" }).city_id = "9" ∧
      (resolveSalon [{ id := "9", city := "Springfield", state_id := "IL1" }]
        [{ id := "IL1", state := "Illinois" }]
        { id := "5", title := "T", city_id := "",
          address := "123 Main St, Springfield, IL, USA" }).city_name = "Springfield" := by
  exact ⟨by decide, by decide⟩

/-! ## C10 -/

/-- C10: the state-abbreviation inference runs for any Business with a
nonempty address whose `state_id` or `state_name` is still unset after the
city_id lookup; in particular a Business loaded with a `state_id` that the
lookup and the city step leave untouched (hence no `state_name`) has that
state replaced by the first prefix match of the heuristic. -/
theorem c10_inference_trigger (cities : List City) (states : List State)
    (s : Salon) (st : State)
    (haddr : s.address ≠ "") (hcity : cityLookup cities s.city_id = none)
    (hsid : s.state_id ≠ "") (hsname : s.state_name = "")
    (hinf : inferStateFromAddress states s.address = some st) (hstid : st.id ≠ "") :
    (resolveSalon cities states s).state_id = st.id ∧
      (resolveSalon cities states s).state_name = st.state := by
  unfold resolveSalon
  rw [assignFromCityId_of_lookup_none cities states s hcity]
  rw [inferStateStep_fires states s st haddr (Or.inr hsname) hinf]
  exact extractCityStep_state_of_set cities states _ (by simpa using hstid)

/-- C10, witness: a Business loaded with dangling state id "ZZ" (no such
State) gets it replaced by "TX1" via the "TE" abbreviation token matched
against "Texas". -/
theorem c10_inference_trigger_witness :
    (resolveSalon [] [{ id := "TX1", state := "Texas" }]
        { id := "b", title := "t", address := "1 Main St, Austin TE, USA",
          state_id := "ZZ" }).state_id = "TX1" ∧
      (resolveSalon [] [{ id := "TX1", state := "Texas" }]
        { id := "b", title := "t", address := "1 Main St, Austin TE, USA",
          state_id := "ZZ" }).state_name = "Texas" :=
  c10_inference_trigger [] [{ id := "TX1", state := "Texas" }] _ { id := "TX1", state := "Texas" }
    (by decide) (by decide) (by decide) (by decide) (by decide) (by decide)

/-! ## C8 -/

/-- C8: an input of exactly 200 salons produces exactly one company sitemap
shard, whose chunk is the whole input, with one url entry per salon, i.e.
exactly 200 entries. -/
theorem c8_sitemap_boundary (salons : List ProcessedSalon) (h : salons.length = 200) :
    chunk200 salons = [salons] ∧
      companySitemaps salons = [companySitemapXml salons] ∧
      (salons.map companySitemapEntry).length = 200 := by
  have hchunk : chunk200 salons = [salons] := by
    cases salons with
    | nil => simp at h
    | cons a t =>
      unfold chunk200
      rw [List.take_of_length_le (by omega), List.drop_eq_nil_of_le (by omega)]
      simp [chunk200]
  refine ⟨hchunk, ?_, by rw [List.length_map, h]⟩
  unfold companySitemaps
  rw [hchunk]
  rfl

/-- C8, witness: 200 concrete salons yield one shard of 200 entries. -/
theorem c8_sitemap_boundary_witness :
    chunk200 (List.replicate 200 ({} : ProcessedSalon)) = [List.replicate 200 {}] ∧
      companySitemaps (List.replicate 200 {}) =
        [companySitemapXml (List.replicate 200 {})] ∧
      ((List.replicate 200 ({} : ProcessedSalon)).map companySitemapEntry).length = 200 :=
  c8_sitemap_boundary (List.replicate 200 {}) (by rfl)

/-! ## C4, C5, C6, C7: counterexamples -/

/-- C4, counterexample: a Business listing the same category id twice
("3,3") is counted twice, so the computed count 2 differs from the number of
Businesses (namely 1) whose split `category_ids` contains "3". -/
theorem c4_counterexample :
    categoryCounts [{ id := "3", category := "C" }] [{ id := "1", category_ids := "3,3" }] "3" ≠
      (([{ id := "1", category_ids := "3,3" }] : List Salon).filter
        (fun s => (jsSplit ',' s.category_ids).contains "3")).length := by
  decide

/-- C5, counterexample: the Businesses {title:"a-1", id:"2"} and {title:"a",
id:"1-2"} are distinct (distinct ids) yet receive the same slug
"unknown-city-us-a-1-2": the embedded id does not guarantee uniqueness when
ids may contain hyphens. -/
theorem c5_counterexample :
    salonSlug [] [] { id := "2", title := "a-1" } =
        salonSlug [] [] { id := "1-2", title := "a" } ∧
      ({ id := "2", title := "a-1" } : Salon).id ≠ ({ id := "1-2", title := "a" } : Salon).id := by
  exact ⟨by decide, by decide⟩

/-- C6, counterexample: the projection build is not side-effect-free on the
raw Business records: for a salon with no `state_name` whose `city_id`
resolves to a city whose state resolves, line 398 writes the state name back
onto the raw salon, so the salon left behind differs from the input. -/
theorem c6_counterexample :
    (projectSalon [{ id := "9", city := "Springfield", state_id := "S2" }]
        [{ id := "S2", state := "Illinois" }]
        { id := "1", title := "T", city_id := "9", state_id := "S1" }).2 ≠
      { id := "1", title := "T", city_id := "9", state_id := "S1" } := by
  decide

/-- C7, counterexample: a State whose id is the empty string is never counted
(the guard `city.state_id && ...` treats "" as unset), so its computed
`city_count` 0 differs from the number of Cities (namely 1) whose `state_id`
equals that State's id. -/
theorem c7_counterexample :
    let st : State := { id := "", state := "X" }
    let cities : List City := [{ id := "c", city := "C", state_id := "" }]
    stateCityCounts [st] cities st.id ≠
      (cities.filter (fun c => c.state_id == st.id)).length := by
  decide

/-! ## C4, C6, C7: amended statements -/

/-- A `find?` over a list containing a satisfying element is some. -/
theorem find?_isSome_of_mem {α : Type} (p : α → Bool) :
    ∀ (l : List α) (x : α), x ∈ l → p x = true → (l.find? p).isSome
  | a :: t, x, hx, hpx => by
    by_cases ha : p a = true
    · simp [List.find?, ha]
    · rcases List.mem_cons.mp hx with rfl | hxt
      · exact absurd hpx ha
      · simp only [List.find?, Bool.of_not_eq_true ha]
        exact find?_isSome_of_mem p t x hxt hpx

/-- A state that occurs in the collection is found by `stateLookup` under its
own id. -/
theorem stateLookup_isSome_of_mem (states : List State) (st : State) (h : st ∈ states) :
    (stateLookup states st.id).isSome :=
  find?_isSome_of_mem _ states.reverse st (List.mem_reverse.mpr h) (by simp)

/-- A category that occurs in the collection is found by `catLookup` under its
own id. -/
theorem catLookup_isSome_of_mem (cats : List Category) (c : Category) (h : c ∈ cats) :
    (catLookup cats c.id).isSome :=
  find?_isSome_of_mem _ cats.reverse c (List.mem_reverse.mpr h) (by simp)

/-- Evaluating the city-per-state counting fold at one key: the accumulator
value plus the number of counted cities with that `state_id`. -/
theorem stateCityCounts_fold_eval (states : List State) (k : String) :
    ∀ (cities : List City) (acc : String → Nat),
      (cities.foldl
          (fun acc c =>
            if c.state_id != "" && (stateLookup states c.state_id).isSome then bump acc c.state_id
            else acc) acc) k
        = acc k +
          (cities.filter
            (fun c => c.state_id == k &&
              (c.state_id != "" && (stateLookup states c.state_id).isSome))).length
  | [], acc => rfl
  | c :: cs, acc => by
    rw [List.foldl_cons]
    by_cases hg : (c.state_id != "" && (stateLookup states c.state_id).isSome) = true
    · rw [if_pos hg, stateCityCounts_fold_eval states k cs]
      by_cases hk : c.state_id = k
      · subst hk
        rw [List.filter_cons_of_pos (by simp [hg])]
        simp [bump]
        omega
      · have hk' : k ≠ c.state_id := fun h => hk h.symm
        rw [List.filter_cons_of_neg (by simp [hk])]
        simp only [bump, if_neg hk']
    · rw [if_neg hg, stateCityCounts_fold_eval states k cs]
      have hg' : (c.state_id != "" && (stateLookup states c.state_id).isSome) = false :=
        Bool.of_not_eq_true hg
      rw [List.filter_cons_of_neg (by simp [hg'])]

/-- C7, amended: for every State with a nonempty id (and duplicate-free state
ids, the data-model invariant), the computed `city_count` equals the exact
number of Cities whose `state_id` equals that State's id. -/
theorem c7_amended (states : List State) (cities : List City) (st : State)
    (hmem : st ∈ states) (hnd : (states.map State.id).Nodup) (hid : st.id ≠ "") :
    stateCityCounts states cities st.id =
      (cities.filter (fun c => c.state_id == st.id)).length := by
  unfold stateCityCounts
  rw [stateCityCounts_fold_eval states st.id cities (fun _ => 0)]
  have hfc : ∀ c : City,
      (c.state_id == st.id &&
        (c.state_id != "" && (stateLookup states c.state_id).isSome)) =
      (c.state_id == st.id) := by
    intro c
    by_cases hceq : c.state_id = st.id
    · rw [hceq]
      simp [hid, stateLookup_isSome_of_mem states st hmem]
    · simp [hceq]
  simp only [hfc, Nat.zero_add]

/-- C7 amended, witness. -/
theorem c7_amended_witness :
    stateCityCounts [{ id := "S1", state := "Alpha" }]
        [{ id := "c1", city := "C1", state_id := "S1" },
         { id := "c2", city := "C2", state_id := "ZZ" },
         { id := "c3", city := "C3", state_id := "S1" }] "S1"
      = (([{ id := "c1", city := "C1", state_id := "S1" },
           { id := "c2", city := "C2", state_id := "ZZ" },
           { id := "c3", city := "C3", state_id := "S1" }] : List City).filter
          (fun c => c.state_id == "S1")).length :=
  c7_amended [{ id := "S1", state := "Alpha" }] _ { id := "S1", state := "Alpha" }
    (by decide) (by decide) (by decide)

/-- Evaluating the inner per-salon category fold at one key. -/
theorem catFold_eval (cats : List Category) (k : String) :
    ∀ (ids : List String) (acc : String → Nat),
      (ids.foldl (fun a cid => if (catLookup cats cid).isSome then bump a cid else a) acc) k
        = acc k + (ids.filter (fun cid => cid == k && (catLookup cats cid).isSome)).length
  | [], acc => rfl
  | cid :: t, acc => by
    rw [List.foldl_cons]
    by_cases hg : (catLookup cats cid).isSome = true
    · rw [if_pos hg, catFold_eval cats k t]
      by_cases hk : cid = k
      · subst hk
        rw [List.filter_cons_of_pos (by simp [hg])]
        simp [bump]
        omega
      · have hk' : k ≠ cid := fun h => hk h.symm
        rw [List.filter_cons_of_neg (by simp [hk])]
        simp only [bump, if_neg hk']
    · rw [if_neg hg, catFold_eval cats k t]
      have hg' : (catLookup cats cid).isSome = false := Bool.of_not_eq_true hg
      rw [List.filter_cons_of_neg (by simp [hg'])]

/-- The per-salon contribution of the category counting pass at one key. -/
theorem categoryCounts_fold_eval (cats : List Category) (k : String) :
    ∀ (salons : List Salon) (acc : String → Nat),
      (salons.foldl
          (fun acc s =>
            if s.category_ids != "" then
              (jsSplit ',' s.category_ids).foldl
                (fun acc2 cid => if (catLookup cats cid).isSome then bump acc2 cid else acc2) acc
            else acc) acc) k
        = acc k +
          (salons.map
            (fun s =>
              if s.category_ids != "" then
                ((jsSplit ',' s.category_ids).filter
                  (fun cid => cid == k && (catLookup cats cid).isSome)).length
              else 0)).sum
  | [], acc => rfl
  | s :: t, acc => by
    rw [List.foldl_cons, List.map_cons, List.sum_cons]
    by_cases hs : (s.category_ids != "") = true
    · rw [if_pos hs, if_pos hs, categoryCounts_fold_eval cats k t, catFold_eval cats k]
      omega
    · rw [if_neg hs, if_neg hs, categoryCounts_fold_eval cats k t]
      omega

/-- C4, amended: for every Category (duplicate-free category ids, the
data-model invariant), the computed `salon_count` equals the total number of
occurrences of that Category's id across all Businesses' comma-split
`category_ids` — a Business listing the id k times contributes k, so the
count is occurrence-based, not Business-based. -/
theorem c4_amended (cats : List Category) (salons : List Salon) (c : Category)
    (hmem : c ∈ cats) (hnd : (cats.map Category.id).Nodup) :
    categoryCounts cats salons c.id =
      (salons.map
        (fun s =>
          if s.category_ids != "" then
            ((jsSplit ',' s.category_ids).filter (fun cid => cid == c.id)).length
          else 0)).sum := by
  unfold categoryCounts
  rw [categoryCounts_fold_eval cats c.id salons (fun _ => 0)]
  have hfc : ∀ cid : String,
      (cid == c.id && (catLookup cats cid).isSome) = (cid == c.id) := by
    intro cid
    by_cases hceq : cid = c.id
    · subst hceq
      simp [catLookup_isSome_of_mem cats c hmem]
    · simp [hceq]
  simp only [hfc, Nat.zero_add]

/-- C4 amended, witness. -/
theorem c4_amended_witness :
    categoryCounts [{ id := "3", category := "C" }]
        [{ id := "1", category_ids := "3,3" }, { id := "2", category_ids := "3,4" },
         { id := "5", category_ids := "" }] "3"
      = (([{ id := "1", category_ids := "3,3" }, { id := "2", category_ids := "3,4" },
           { id := "5", category_ids := "" }] : List Salon).map
          (fun s =>
            if s.category_ids != "" then
              ((jsSplit ',' s.category_ids).filter (fun cid => cid == "3")).length
            else 0)).sum :=
  c4_amended [{ id := "3", category := "C" }] _ { id := "3", category := "C" }
    (by decide) (by decide)

/-- C6, amended: the projection build changes at most the `state_name` field
of a raw Business record (the line-398 backfill) and nothing else; City, State
and Category records are untouched (their projections are pure functions in
this embedding), and since counting has already run before projection, the
write cannot feed back into resolution or counting. -/
theorem c6_amended (cities : List City) (states : List State) (s : Salon) :
    (projectSalon cities states s).2 =
      { s with state_name := (projectSalon cities states s).2.state_name } := by
  unfold projectSalon
  dsimp only
  split
  · rfl
  · split
    · split
      · split
        · split <;> rfl
        · rfl
      · rfl
    · rfl

/-! ## C2: counterexample -/

/-- C2, counterexample: resolution is not idempotent. The salon below gets its
city from the address extraction (step 2c) while keeping its dangling loaded
state "S1"; a second resolution pass then lets step 2a overwrite the state
with the city-derived "S2", so the projection outputs of one and two passes
differ. -/
theorem c2_counterexample :
    let states : List State := [{ id := "S2", state := "Illinois" }]
    let p : List City × List Salon :=
      ([{ id := "9", city := "Springfield", state_id := "S2" }],
       [{ id := "1", title := "T", address := "123 Main St, Springfield, Illinois, USA",
          state_id := "S1" }])
    projectionOutput states (resolvePass states (resolvePass states p)) ≠
      projectionOutput states (resolvePass states p) := by
  decide

/-! ## C2: amended statement (idempotence on consistent resolutions) -/

/-- Step 2a changes nothing but `city_name`, `state_id`, `state_name`. -/
theorem assignFromCityId_frame (cities : List City) (states : List State) (s : Salon) :
    (assignFromCityId cities states s).id = s.id ∧
      (assignFromCityId cities states s).title = s.title ∧
      (assignFromCityId cities states s).address = s.address ∧
      (assignFromCityId cities states s).city_id = s.city_id ∧
      (assignFromCityId cities states s).category_ids = s.category_ids := by
  unfold assignFromCityId
  repeat' split
  all_goals exact ⟨rfl, rfl, rfl, rfl, rfl⟩

/-- Step 2b changes nothing but `state_id`, `state_name`. -/
theorem inferStateStep_frame (states : List State) (s : Salon) :
    (inferStateStep states s).id = s.id ∧
      (inferStateStep states s).title = s.title ∧
      (inferStateStep states s).address = s.address ∧
      (inferStateStep states s).city_id = s.city_id ∧
      (inferStateStep states s).city_name = s.city_name ∧
      (inferStateStep states s).category_ids = s.category_ids := by
  unfold inferStateStep
  repeat' split
  all_goals exact ⟨rfl, rfl, rfl, rfl, rfl, rfl⟩

/-- Step 2c changes nothing but the city and state fields. -/
theorem extractCityStep_frame (cities : List City) (states : List State) (s : Salon) :
    (extractCityStep cities states s).id = s.id ∧
      (extractCityStep cities states s).title = s.title ∧
      (extractCityStep cities states s).address = s.address ∧
      (extractCityStep cities states s).category_ids = s.category_ids := by
  unfold extractCityStep
  dsimp only
  repeat' split
  all_goals exact ⟨rfl, rfl, rfl, rfl⟩

/-- A state found by `stateLookup` belongs to the collection. -/
theorem stateLookup_mem (states : List State) (k : String) (st : State)
    (h : stateLookup states k = some st) : st ∈ states :=
  List.mem_reverse.mp (List.mem_of_find?_eq_some h)

/-- A state found by the address inference belongs to the collection. -/
theorem inferStateFromAddress_mem (states : List State) (addr : String) (st : State)
    (h : inferStateFromAddress states addr = some st) : st ∈ states := by
  unfold inferStateFromAddress at h
  dsimp only at h
  split at h
  · split at h
    · exact List.mem_of_find?_eq_some h
    · exact absurd h (by simp)
  · exact absurd h (by simp)

/-- Unpacking `statesWF`. -/
theorem statesWF_spec (states : List State) (st : State)
    (hwf : statesWF states = true) (h : st ∈ states) :
    st.id ≠ "" ∧ st.state ≠ "" := by
  unfold statesWF at hwf
  rw [List.all_eq_true] at hwf
  have := hwf st h
  simp only [Bool.and_eq_true, bne_iff_ne, ne_eq] at this
  exact this

/-- Step 2b never empties a `state_id` (state ids are nonempty under
`statesWF`). -/
theorem inferStateStep_state_id_empty (states : List State) (s : Salon)
    (hwf : statesWF states = true)
    (h : (inferStateStep states s).state_id = "") : s.state_id = "" := by
  unfold inferStateStep at h
  split at h
  · split at h
    · rename_i st hinf
      exact absurd h (statesWF_spec states st hwf (inferStateFromAddress_mem states s.address st hinf)).1
    · exact h
  · exact h

/-- Step 2b never empties a `state_name`. -/
theorem inferStateStep_state_name_empty (states : List State) (s : Salon)
    (hwf : statesWF states = true)
    (h : (inferStateStep states s).state_name = "") : s.state_name = "" := by
  unfold inferStateStep at h
  split at h
  · split at h
    · rename_i st hinf
      exact absurd h (statesWF_spec states st hwf (inferStateFromAddress_mem states s.address st hinf)).2
    · exact h
  · exact h

/-- Step 2c never empties a `state_id`. -/
theorem extractCityStep_state_id_empty (cities : List City) (states : List State) (s : Salon)
    (h : (extractCityStep cities states s).state_id = "") : s.state_id = "" := by
  unfold extractCityStep at h
  dsimp only at h
  split at h
  · split at h
    · split at h
      · split at h
        · split at h
          · simp_all
          · simp_all
        · exact h
      · exact h
    · exact h
  · exact h

/-- Step 2c never empties a `state_name` (state names are nonempty under
`statesWF`). -/
theorem extractCityStep_state_name_empty (cities : List City) (states : List State) (s : Salon)
    (hwf : statesWF states = true)
    (h : (extractCityStep cities states s).state_name = "") : s.state_name = "" := by
  unfold extractCityStep at h
  dsimp only at h
  split at h
  · split at h
    · split at h
      · split at h
        · split at h
          · rename_i hlook
            exact absurd h (statesWF_spec states _ hwf (stateLookup_mem states _ _ hlook)).2
          · exact h
        · exact h
      · exact h
    · exact h
  · exact h

/-- `find?` by key returns the element itself when keys are duplicate-free. -/
theorem find?_key_unique {α : Type} (key : α → String) :
    ∀ (l : List α) (x : α), x ∈ l → (l.map key).Nodup →
      l.find? (fun y => key y == key x) = some x
  | a :: t, x, hx, hnd => by
    rw [List.map_cons, List.nodup_cons] at hnd
    rcases List.mem_cons.mp hx with rfl | hxt
    · simp [List.find?]
    · have hka : key a ≠ key x := fun he => hnd.1 (he ▸ List.mem_map_of_mem key hxt)
      have hne : (key a == key x) = false := by simpa using hka
      rw [List.find?_cons, hne]
      exact find?_key_unique key t x hxt hnd.2

/-- With duplicate-free city ids, looking a city up under its own id returns
that city. -/
theorem cityLookup_of_mem_nodup (cities : List City) (c : City) (hc : c ∈ cities)
    (hnd : (cities.map City.id).Nodup) : cityLookup cities c.id = some c :=
  find?_key_unique City.id cities.reverse c (List.mem_reverse.mpr hc)
    (by rw [List.map_reverse]; exact List.nodup_reverse.mpr hnd)

/-- Unpacking `consistentB` in the fully-resolvable case. -/
theorem consistentB_spec (cities : List City) (states : List State) (t : Salon)
    (c : City) (st : State)
    (h1 : t.city_id ≠ "") (h2 : cityLookup cities t.city_id = some c)
    (h3 : c.state_id ≠ "") (h4 : stateLookup states c.state_id = some st)
    (hc : consistentB cities states t = true) :
    t.state_id = c.state_id ∧ t.state_name = st.state := by
  unfold consistentB at hc
  rw [if_pos (by simpa using h1), h2] at hc
  dsimp only at hc
  rw [if_pos (by simpa using h3), h4] at hc
  simpa using hc

/-- After step 2a, a resolvable `city_id` implies `city_name` is the looked-up
city name. -/
theorem assignFromCityId_city_name (cities : List City) (states : List State)
    (s : Salon) (c : City)
    (hcid : (assignFromCityId cities states s).city_id ≠ "")
    (hlook : cityLookup cities (assignFromCityId cities states s).city_id = some c) :
    (assignFromCityId cities states s).city_name = c.city := by
  rw [(assignFromCityId_frame cities states s).2.2.2.1] at hcid hlook
  unfold assignFromCityId
  rw [if_pos (by simpa using hcid), hlook]
  dsimp only
  split
  · split
    · rfl
    · rfl
  · rfl

/-- Step 2c either leaves the salon unchanged or rebinds its city fields to a
city found in the collection. -/
theorem extractCityStep_cases (cities : List City) (states : List State) (s : Salon) :
    extractCityStep cities states s = s ∨
      ∃ c, c ∈ cities ∧ (extractCityStep cities states s).city_id = c.id ∧
        (extractCityStep cities states s).city_name = c.city := by
  unfold extractCityStep
  dsimp only
  split
  · split
    · split
      · rename_i c hfind
        refine Or.inr ⟨c, List.mem_of_find?_eq_some hfind, ?_⟩
        split
        · split
          · exact ⟨rfl, rfl⟩
          · exact ⟨rfl, rfl⟩
        · exact ⟨rfl, rfl⟩
      · exact Or.inl rfl
    · exact Or.inl rfl
  · exact Or.inl rfl

/-- After the full per-salon resolution, a resolvable `city_id` implies the
`city_name` is the looked-up city name (duplicate-free city ids). -/
theorem resolved_city_name (cities : List City) (states : List State) (s : Salon) (c : City)
    (hnd : (cities.map City.id).Nodup)
    (hcid : (resolveSalon cities states s).city_id ≠ "")
    (hlook : cityLookup cities (resolveSalon cities states s).city_id = some c) :
    (resolveSalon cities states s).city_name = c.city := by
  unfold resolveSalon at hcid hlook ⊢
  rcases extractCityStep_cases cities states
      (inferStateStep states (assignFromCityId cities states s)) with hres | ⟨c2, hc2, hi2, hn2⟩
  · rw [hres] at hcid hlook ⊢
    have hfB := inferStateStep_frame states (assignFromCityId cities states s)
    rw [hfB.2.2.2.1] at hcid hlook
    rw [hfB.2.2.2.2.1]
    exact assignFromCityId_city_name cities states s c hcid hlook
  · rw [hi2] at hlook
    rw [cityLookup_of_mem_nodup cities c2 hc2 hnd] at hlook
    cases hlook
    exact hn2

/-- A resolved salon is a fixpoint of the per-salon resolution whenever its
resolved form is consistent with the city-state chain, city ids are
duplicate-free and the state collection is non-degenerate. -/
theorem resolveSalon_fixpoint (cities : List City) (states : List State) (s : Salon)
    (hnd : (cities.map City.id).Nodup)
    (hwf : statesWF states = true)
    (hcons : consistentB cities states (resolveSalon cities states s) = true) :
    resolveSalon cities states (resolveSalon cities states s) = resolveSalon cities states s := by
  unfold resolveSalon at hcons ⊢
  set m := assignFromCityId cities states s with hmdef
  set n := inferStateStep states m with hndef
  set t := extractCityStep cities states n with htdef
  have haddr_nm : n.address = m.address := (inferStateStep_frame states m).2.2.1
  have haddr_tn : t.address = n.address := (extractCityStep_frame cities states n).2.2.1
  have hA : assignFromCityId cities states t = t := by
    by_cases h1 : t.city_id = ""
    · unfold assignFromCityId
      rw [if_neg (by simp [h1])]
    · cases hlook : cityLookup cities t.city_id with
      | none => exact assignFromCityId_of_lookup_none cities states t hlook
      | some c =>
        have hcn : t.city_name = c.city :=
          resolved_city_name cities states s c hnd h1 hlook
        by_cases h3 : c.state_id = ""
        · unfold assignFromCityId
          rw [if_pos (by simpa using h1), hlook]
          dsimp only
          rw [if_neg (by simp [h3]), ← hcn]
        · cases hslook : stateLookup states c.state_id with
          | none =>
            unfold assignFromCityId
            rw [if_pos (by simpa using h1), hlook]
            dsimp only
            rw [if_pos (by simpa using h3), hslook, ← hcn]
          | some st =>
            obtain ⟨hsid, hsname⟩ :=
              consistentB_spec cities states t c st h1 hlook h3 hslook hcons
            rw [assignFromCityId_resolved cities states t c st h1 hlook h3 hslook]
            rw [← hcn, ← hsid, ← hsname]
  have hB : inferStateStep states t = t := by
    by_cases hcond : (t.address != "" && (t.state_id == "" || t.state_name == "")) = true
    · have hcond' := hcond
      simp only [Bool.and_eq_true, Bool.or_eq_true, bne_iff_ne, ne_eq, beq_iff_eq] at hcond'
      obtain ⟨hta, hts⟩ := hcond'
      have hms : m.state_id = "" ∨ m.state_name = "" := by
        rcases hts with h | h
        · exact Or.inl (inferStateStep_state_id_empty states m hwf
            (extractCityStep_state_id_empty cities states n h))
        · exact Or.inr (inferStateStep_state_name_empty states m hwf
            (extractCityStep_state_name_empty cities states n hwf h))
      have hmcond : (m.address != "" && (m.state_id == "" || m.state_name == "")) = true := by
        simp only [Bool.and_eq_true, Bool.or_eq_true, bne_iff_ne, ne_eq, beq_iff_eq]
        refine ⟨?_, hms⟩
        rw [← haddr_nm, ← haddr_tn]
        exact hta
      cases hinf : inferStateFromAddress states m.address with
      | none =>
        unfold inferStateStep
        rw [if_pos hcond]
        have : inferStateFromAddress states t.address = none := by
          rw [haddr_tn, haddr_nm]
          exact hinf
        rw [this]
      | some st =>
        exfalso
        have hnval : n = { m with state_id := st.id, state_name := st.state } := by
          rw [hndef]
          unfold inferStateStep
          rw [if_pos hmcond, hinf]
        have hstwf := statesWF_spec states st hwf
          (inferStateFromAddress_mem states m.address st hinf)
        rcases hts with h | h
        · have hne : n.state_id = "" := extractCityStep_state_id_empty cities states n h
          rw [hnval] at hne
          exact hstwf.1 hne
        · have hne : n.state_name = "" := extractCityStep_state_name_empty cities states n hwf h
          rw [hnval] at hne
          exact hstwf.2 hne
    · unfold inferStateStep
      rw [if_neg hcond]
  have hC : extractCityStep cities states t = t := by
    by_cases hccond : (t.address != "" && t.city_name == "") = true
    · have hccond' := hccond
      simp only [Bool.and_eq_true, bne_iff_ne, ne_eq, beq_iff_eq] at hccond'
      obtain ⟨hta, htcn⟩ := hccond'
      have hparts_eq : addressParts t.address = addressParts n.address := by rw [haddr_tn]
      by_cases hncn : n.city_name = ""
      · have hncond : (n.address != "" && n.city_name == "") = true := by
          simp only [Bool.and_eq_true, bne_iff_ne, ne_eq, beq_iff_eq]
          exact ⟨by rw [← haddr_tn]; exact hta, hncn⟩
        by_cases hlen : (addressParts n.address).length ≥ 3
        · cases hfind : (cities.find? (fun c => jsToLower c.city ==
              jsToLower ((addressParts n.address).getD ((addressParts n.address).length - 3) ""))) with
          | none =>
            unfold extractCityStep
            rw [if_pos hccond]
            dsimp only
            rw [hparts_eq, if_pos hlen, hfind]
          | some c =>
            have ht_city : t.city_id = c.id ∧ t.city_name = c.city := by
              rw [htdef]
              unfold extractCityStep
              rw [if_pos hncond]
              dsimp only
              rw [if_pos hlen, hfind]
              dsimp only
              split
              · split
                · exact ⟨rfl, rfl⟩
                · exact ⟨rfl, rfl⟩
              · exact ⟨rfl, rfl⟩
            have hguard_t : (c.state_id != "" && t.state_id == "") = false := by
              by_cases hg : (c.state_id != "" && n.state_id == "") = true
              · have htid : t.state_id = c.state_id := by
                  rw [htdef]
                  unfold extractCityStep
                  rw [if_pos hncond]
                  dsimp only
                  rw [if_pos hlen, hfind]
                  dsimp only
                  rw [if_pos hg]
                  split
                  · rfl
                  · rfl
                have hcs : c.state_id ≠ "" := by
                  simp only [Bool.and_eq_true, bne_iff_ne, ne_eq, beq_iff_eq] at hg
                  exact hg.1
                rw [htid]
                simp [hcs]
              · have htid : t.state_id = n.state_id := by
                  rw [htdef]
                  unfold extractCityStep
                  rw [if_pos hncond]
                  dsimp only
                  rw [if_pos hlen, hfind]
                  dsimp only
                  rw [if_neg hg]
                rw [htid]
                exact Bool.of_not_eq_true hg
            unfold extractCityStep
            rw [if_pos hccond]
            dsimp only
            rw [hparts_eq, if_pos hlen, hfind]
            dsimp only
            rw [if_neg (by simp [hguard_t])]
            rw [← ht_city.1, ← ht_city.2]
        · unfold extractCityStep
          rw [if_pos hccond]
          dsimp only
          rw [hparts_eq, if_neg hlen]
      · exfalso
        have htn : t = n := by
          rw [htdef]
          unfold extractCityStep
          rw [if_neg (by simp [hncn])]
        rw [htn] at htcn
        exact hncn htcn
    · unfold extractCityStep
      rw [if_neg hccond]
  rw [hA, hB, hC]

/-- Step 1 preserves a city's id. -/
theorem resolveCity_id (states : List State) (c : City) :
    (resolveCity states c).id = c.id := by
  unfold resolveCity
  repeat' split
  all_goals rfl

/-- Step 1 (state-name backfill on cities) is idempotent. -/
theorem resolveCity_idem (states : List State) (c : City) :
    resolveCity states (resolveCity states c) = resolveCity states c := by
  by_cases h1 : (c.state_id != "") = true
  · cases h2 : stateLookup states c.state_id with
    | some st =>
      have e1 : resolveCity states c = { c with state_name := st.state } := by
        unfold resolveCity
        rw [if_pos h1, h2]
      rw [e1]
      unfold resolveCity
      dsimp only
      rw [if_pos h1, h2]
    | none =>
      have e1 : resolveCity states c = c := by
        unfold resolveCity
        rw [if_pos h1, h2]
      rw [e1, e1]
  · have e1 : resolveCity states c = c := by
      unfold resolveCity
      rw [if_neg h1]
    rw [e1, e1]

/-- Mapping an idempotent-on-the-list function twice is mapping it once. -/
theorem map_idem_on {α : Type} (f : α → α) :
    ∀ l : List α, (∀ x ∈ l, f (f x) = f x) → (l.map f).map f = l.map f
  | [], _ => rfl
  | a :: t, h => by
    simp only [List.map_cons]
    rw [h a (List.mem_cons_self a t), map_idem_on f t (fun x hx => h x (List.mem_cons_of_mem a hx))]

/-- C2, amended: running the resolution pass (steps 1-2) twice yields the same
projection output as running it once, provided city ids are duplicate-free,
states have nonempty ids and names, and every Business comes out of the first
pass consistent with its city-state chain (`consistentB`) — i.e., no Business
got its city from the address extraction while retaining a conflicting
pre-existing state.  The counterexample shows the proviso is necessary. -/
theorem c2_amended (cities : List City) (states : List State) (salons : List Salon)
    (hnd : (cities.map City.id).Nodup)
    (hwf : statesWF states = true)
    (hcons : ∀ s ∈ salons,
      consistentB (cities.map (resolveCity states)) states
        (resolveSalon (cities.map (resolveCity states)) states s) = true) :
    projectionOutput states (resolvePass states (resolvePass states (cities, salons))) =
      projectionOutput states (resolvePass states (cities, salons)) := by
  have hnd1 : ((cities.map (resolveCity states)).map City.id).Nodup := by
    rw [List.map_map]
    rw [show (City.id ∘ resolveCity states) = City.id from funext fun c => resolveCity_id states c]
    exact hnd
  unfold resolvePass
  dsimp only
  have hc1 : (cities.map (resolveCity states)).map (resolveCity states) =
      cities.map (resolveCity states) :=
    map_idem_on (resolveCity states) cities (fun c _ => resolveCity_idem states c)
  rw [hc1]
  have hs1 : ((salons.map (resolveSalon (cities.map (resolveCity states)) states)).map
      (resolveSalon (cities.map (resolveCity states)) states)) =
      salons.map (resolveSalon (cities.map (resolveCity states)) states) :=
    map_idem_on (resolveSalon (cities.map (resolveCity states)) states) salons
      (fun s hs => resolveSalon_fixpoint (cities.map (resolveCity states)) states s hnd1 hwf
        (hcons s hs))
  rw [hs1]

/-- C2 amended, witness: a dataset whose resolved Business is consistent with
its city-state chain; two passes give the same projection output as one. -/
theorem c2_amended_witness :
    projectionOutput [{ id := "S2", state := "Illinois" }]
        (resolvePass [{ id := "S2", state := "Illinois" }]
          (resolvePass [{ id := "S2", state := "Illinois" }]
            ([{ id := "9", city := "Springfield", state_id := "S2" }],
             [{ id := "5", title := "T", address := "123 Main St, Springfield, IL, USA" }]))) =
      projectionOutput [{ id := "S2", state := "Illinois" }]
        (resolvePass [{ id := "S2", state := "Illinois" }]
          ([{ id := "9", city := "Springfield", state_id := "S2" }],
           [{ id := "5", title := "T", address := "123 Main St, Springfield, IL, USA" }])) :=
  c2_amended [{ id := "9", city := "Springfield", state_id := "S2" }]
    [{ id := "S2", state := "Illinois" }]
    [{ id := "5", title := "T", address := "123 Main St, Springfield, IL, USA" }]
    (by decide) (by decide) (by decide)

/-! ## C5: amended statement (slug uniqueness for safe ids) -/

/-- The safe id characters pass every slugification phase unchanged: they are
not whitespace, not hyphens, kept by the removal regex and fixed by
lower-casing. -/
theorem slugSafe_facts :
    ∀ c ∈ slugSafeChars, Char.isWhitespace c = false ∧ c ≠ '-' ∧ slugKeep c = true ∧
      Char.toLower c = c := by
  decide

/-- `slugFilter` distributes over append. -/
theorem slugFilter_append : ∀ xs ys : List Char,
    slugFilter (xs ++ ys) = slugFilter xs ++ slugFilter ys
  | [], ys => rfl
  | c :: xs, ys => by
    simp only [List.cons_append, slugFilter, List.append_eq]
    rw [slugFilter_append xs ys]
    split <;> split <;> rfl

/-- `slugFilter` fixes strings of safe characters. -/
theorem slugFilter_safe : ∀ l : List Char, (∀ c ∈ l, c ∈ slugSafeChars) → slugFilter l = l
  | [], _ => rfl
  | c :: l, h => by
    obtain ⟨hws, hhy, hkeep, hlow⟩ := slugSafe_facts c (h c (List.mem_cons_self c l))
    simp only [slugFilter]
    rw [if_neg hhy, if_pos hkeep,
      slugFilter_safe l (fun x hx => h x (List.mem_cons_of_mem c hx))]

/-- `dropWhile` is the identity when every character fails the predicate. -/
theorem dropWhile_all_false (p : Char → Bool) :
    ∀ l : List Char, (∀ c ∈ l, p c = false) → l.dropWhile p = l
  | [], _ => rfl
  | c :: l, h => by
    rw [List.dropWhile_cons, h c (List.mem_cons_self c l)]
    simp

/-- Splitting `dropWhile` over an append. -/
theorem dropWhile_append_split (p : Char → Bool) :
    ∀ xs ys : List Char,
      List.dropWhile p (xs ++ ys) =
        if (List.dropWhile p xs).isEmpty then List.dropWhile p ys
        else List.dropWhile p xs ++ ys
  | [], ys => by simp
  | x :: xs, ys => by
    rw [List.cons_append, List.dropWhile_cons, List.dropWhile_cons]
    by_cases hp : p x = true
    · rw [if_pos hp, if_pos hp, dropWhile_append_split p xs ys]
    · rw [if_neg hp, if_neg hp]
      simp

/-- Trimming a list of the form `P ++ ' ' :: I` with `I` nonempty and
whitespace-free either keeps some prefix and the separator or yields exactly
`I`. -/
theorem trimChars_sep (P I : List Char) (hne : I ≠ [])
    (hclean : ∀ c ∈ I, Char.isWhitespace c = false) :
    (∃ Q, trimChars (P ++ ' ' :: I) = Q ++ ' ' :: I) ∨ trimChars (P ++ ' ' :: I) = I := by
  obtain ⟨c0, r, hrev⟩ : ∃ c0 r, I.reverse = c0 :: r := by
    cases hI : I.reverse with
    | nil => exact absurd (List.reverse_eq_nil_iff.mp hI) hne
    | cons a bs => exact ⟨a, bs, rfl⟩
  have hc0 : Char.isWhitespace c0 = false := by
    refine hclean c0 ?_
    rw [← List.mem_reverse, hrev]
    exact List.mem_cons_self c0 r
  unfold trimChars
  rw [dropWhile_append_split]
  by_cases hP : (List.dropWhile Char.isWhitespace P).isEmpty = true
  · rw [if_pos hP]
    right
    have h1 : List.dropWhile Char.isWhitespace (' ' :: I) =
        List.dropWhile Char.isWhitespace I := by
      rw [List.dropWhile_cons]
      simp
    rw [h1, dropWhile_all_false _ I hclean, hrev, List.dropWhile_cons,
      if_neg (by simp [hc0]), ← hrev, List.reverse_reverse]
  · rw [if_neg hP]
    left
    refine ⟨List.dropWhile Char.isWhitespace P, ?_⟩
    have hshape : (List.dropWhile Char.isWhitespace P ++ ' ' :: I).reverse =
        c0 :: (r ++ ' ' :: (List.dropWhile Char.isWhitespace P).reverse) := by
      rw [List.reverse_append, List.reverse_cons, hrev]
      simp [List.cons_append, List.append_assoc]
    rw [hshape, List.dropWhile_cons, if_neg (by simp [hc0]), ← hshape, List.reverse_reverse]

/-- `collapseWsAux false` fixes whitespace-free lists. -/
theorem collapseWsAux_false_clean :
    ∀ l : List Char, (∀ c ∈ l, Char.isWhitespace c = false) → collapseWsAux false l = l
  | [], _ => rfl
  | c :: l, h => by
    have hc := h c (List.mem_cons_self c l)
    simp [collapseWsAux, hc,
      collapseWsAux_false_clean l (fun x hx => h x (List.mem_cons_of_mem c hx))]

/-- `collapseWsAux true` prepends the pending hyphen to a whitespace-free
list. -/
theorem collapseWsAux_true_clean :
    ∀ l : List Char, (∀ c ∈ l, Char.isWhitespace c = false) →
      collapseWsAux true l = '-' :: l
  | [], _ => by simp [collapseWsAux]
  | c :: l, h => by
    have hc := h c (List.mem_cons_self c l)
    simp [collapseWsAux, hc,
      collapseWsAux_false_clean l (fun x hx => h x (List.mem_cons_of_mem c hx))]

/-- Collapsing `m ++ ' ' :: I` with `I` whitespace-free always produces
`Z ++ '-' :: I` for some `Z`. -/
theorem collapseWsAux_sep :
    ∀ (m : List Char) (b : Bool) (I : List Char),
      (∀ c ∈ I, Char.isWhitespace c = false) →
      ∃ Z, collapseWsAux b (m ++ ' ' :: I) = Z ++ '-' :: I
  | [], b, I, h => by
    refine ⟨[], ?_⟩
    simp only [List.nil_append, collapseWsAux]
    rw [if_pos (by decide), collapseWsAux_true_clean I h]
  | c :: m, b, I, h => by
    by_cases hws : Char.isWhitespace c = true
    · obtain ⟨Z, hZ⟩ := collapseWsAux_sep m true I h
      exact ⟨Z, by simp [collapseWsAux, hws, hZ]⟩
    · obtain ⟨Z, hZ⟩ := collapseWsAux_sep m false I h
      cases b with
      | false => exact ⟨c :: Z, by simp [collapseWsAux, hws, hZ]⟩
      | true => exact ⟨'-' :: c :: Z, by simp [collapseWsAux, hws, hZ]⟩

/-- Folding the last-component accumulator over a hyphen-free list appends
it. -/
theorem lastComp_foldl_clean :
    ∀ (l : List Char) (acc : List Char), (∀ c ∈ l, c ≠ '-') →
      l.foldl (fun acc c => if c = '-' then [] else acc ++ [c]) acc = acc ++ l
  | [], acc, _ => by simp
  | c :: l, acc, h => by
    rw [List.foldl_cons, if_neg (h c (List.mem_cons_self c l)),
      lastComp_foldl_clean l (acc ++ [c]) (fun x hx => h x (List.mem_cons_of_mem c hx))]
    simp

/-- The last hyphen-component of `Z ++ '-' :: I` is `I` when `I` is
hyphen-free. -/
theorem lastComp_append_hyphen (Z I : List Char) (h : ∀ c ∈ I, c ≠ '-') :
    lastComp (Z ++ '-' :: I) = I := by
  unfold lastComp
  rw [List.foldl_append, List.foldl_cons, if_pos rfl, lastComp_foldl_clean I [] h]
  rfl

/-- The last hyphen-component of a hyphen-free list is the list itself. -/
theorem lastComp_clean (I : List Char) (h : ∀ c ∈ I, c ≠ '-') : lastComp I = I := by
  unfold lastComp
  rw [lastComp_foldl_clean I [] h]
  rfl

/-- Lower-casing fixes a list of already-fixed characters. -/
theorem map_toLower_fix :
    ∀ l : List Char, (∀ c ∈ l, Char.toLower c = c) → l.map Char.toLower = l
  | [], _ => rfl
  | c :: l, h => by
    rw [List.map_cons, h c (List.mem_cons_self c l),
      map_toLower_fix l (fun x hx => h x (List.mem_cons_of_mem c hx))]

/-- The last hyphen-component of `slugify (b ++ "-" ++ i)` recovers the safe
id `i` verbatim, for every prefix `b`. -/
theorem slug_lastComp (b i : String) (hsafe : idSafe i = true) :
    lastComp (slugify (b ++ "-" ++ i)).data = i.data := by
  unfold idSafe at hsafe
  simp only [Bool.and_eq_true, bne_iff_ne, ne_eq, List.all_eq_true] at hsafe
  obtain ⟨hne, hall⟩ := hsafe
  have hmem : ∀ c ∈ i.data, c ∈ slugSafeChars := by
    intro c hc
    have := hall c hc
    simpa using this
  have hws : ∀ c ∈ i.data, Char.isWhitespace c = false :=
    fun c hc => (slugSafe_facts c (hmem c hc)).1
  have hhy : ∀ c ∈ i.data, c ≠ '-' :=
    fun c hc => (slugSafe_facts c (hmem c hc)).2.1
  have hlow : ∀ c ∈ i.data, Char.toLower c = c :=
    fun c hc => (slugSafe_facts c (hmem c hc)).2.2.2
  have hIne : i.data ≠ [] := by
    intro h0
    apply hne
    cases i with
    | mk d =>
      dsimp only at h0
      rw [h0]
  have hdata : (b ++ "-" ++ i).data = b.data ++ '-' :: i.data := by
    rw [String.data_append, String.data_append]
    rw [List.append_assoc]
    rfl
  have hslug : (slugify (b ++ "-" ++ i)).data =
      ((collapseWs (trimChars (slugFilter (b ++ "-" ++ i).data))).map Char.toLower) := rfl
  rw [hslug, hdata, slugFilter_append]
  have hfilsep : slugFilter ('-' :: i.data) = ' ' :: i.data := by
    simp only [slugFilter]
    simp [slugFilter_safe i.data hmem, show slugKeep ' ' = true from by decide]
  rw [hfilsep]
  rcases trimChars_sep (slugFilter b.data) i.data hIne hws with ⟨Q, hQ⟩ | hT
  · rw [hQ]
    obtain ⟨Z, hZ⟩ := collapseWsAux_sep Q false i.data hws
    unfold collapseWs
    rw [hZ, List.map_append, List.map_cons, map_toLower_fix i.data hlow,
      show Char.toLower '-' = '-' from by decide]
    exact lastComp_append_hyphen _ _ hhy
  · rw [hT]
    unfold collapseWs
    rw [collapseWsAux_false_clean i.data hws, map_toLower_fix i.data hlow]
    exact lastComp_clean i.data hhy

/-- The last hyphen-component of a generated salon slug is the salon's id when
the id is safe. -/
theorem salonSlug_extract (cities : List City) (states : List State) (s : Salon)
    (hsafe : idSafe s.id = true) :
    lastComp (salonSlug cities states s).data = s.id.data := by
  unfold salonSlug projectSalon
  dsimp only
  exact slug_lastComp _ s.id hsafe

/-- C5, amended: two Businesses with distinct ids that are nonempty strings of
lowercase letters and digits always receive distinct slugs, for every
combination of titles and resolved or unresolved city and state labels.  With
unrestricted ids (which may contain hyphens) slugs can collide, as the
counterexample shows. -/
theorem c5_amended (cities : List City) (states : List State) (s1 s2 : Salon)
    (h1 : idSafe s1.id = true) (h2 : idSafe s2.id = true) (hne : s1.id ≠ s2.id) :
    salonSlug cities states s1 ≠ salonSlug cities states s2 := by
  intro heq
  apply hne
  have e1 := salonSlug_extract cities states s1 h1
  have e2 := salonSlug_extract cities states s2 h2
  rw [heq] at e1
  have hdata : s1.id.data = s2.id.data := by rw [← e1, ← e2]
  cases h1 : s1.id with
  | mk d1 =>
    cases h2 : s2.id with
    | mk d2 =>
      rw [h1, h2] at hdata
      dsimp only at hdata
      rw [hdata]

/-- C5 amended, witness: ids "1" and "2" give distinct slugs. -/
theorem c5_amended_witness :
    salonSlug [] [] { id := "1", title := "a" } ≠ salonSlug [] [] { id := "2", title := "a" } :=
  c5_amended [] [] { id := "1", title := "a" } { id := "2", title := "a" }
    (by decide) (by decide) (by decide)
